import Mathlib

/-
Verification of the node-registry router (src/panel/app/routers/nodes.py).

The router exposes four endpoints over a persisted collection of Node rows:
  - create_node (POST "")        : register / upsert by fingerprint
  - list_nodes  (GET "")         : list every record
  - get_node    (GET "/{id}")    : single lookup by id, 404 when absent
  - delete_node (DELETE "/{id}") : delete by id, 404 when absent

The shallow embedding below models the database table as a list of rows,
carried through every endpoint together with the response, and Python dicts
(the JSON metadata column) as association lists with Python dict.update
semantics.  Timestamps are naturals; the current time is passed as an
explicit argument to the stateful endpoints.
-/

namespace Smite

/-- Metadata mappings: string keys to JSON-compatible values.  No operation in
the router inspects the values, so they are modelled opaquely as strings.
The representation is an insertion-ordered association list, matching a
Python dict. -/
abbrev Metadata := List (String × String)

/-- Request body of POST "" (class NodeCreate in nodes.py): name, fingerprint,
and a metadata dict defaulting to the empty mapping. -/
structure NodeCreate where
  name : String
  fingerprint : String
  metadata : Metadata := []
deriving DecidableEq

/-- A stored row of the nodes table.  Modelled from the spec: the ORM model
(app/models.py) is not in src; per the spec a Node has an opaque
system-generated id, a name, a unique fingerprint, a status, registered_at
and last_seen timestamps, and a nullable JSON metadata column whose internal
name is node_metadata. -/
structure Node where
  id : String
  name : String
  fingerprint : String
  status : String
  registered_at : Nat
  last_seen : Nat
  node_metadata : Option Metadata
deriving DecidableEq

/-- Response body (class NodeResponse in nodes.py): all fields of the record,
with the metadata field never null. -/
structure NodeResponse where
  id : String
  name : String
  fingerprint : String
  status : String
  registered_at : Nat
  last_seen : Nat
  metadata : Metadata
deriving DecidableEq

/-- The persistent store: the rows of the nodes table, in physical insertion
order, plus the state of the id generator.  Modelled from the spec: id
generation lives in the missing app/models.py; the spec only requires a
freshly generated opaque identifier, modelled as a counter rendered to a
string. -/
structure Store where
  nodes : List Node
  nextId : Nat
deriving DecidableEq

/-- The empty store. -/
def emptyStore : Store := { nodes := [], nextId := 1 }

/-- Failures an endpoint can signal: an HTTPException (status code and
detail), sqlalchemy's MultipleResultsFound raised by scalar_one_or_none
when more than one row matches, and Python's AttributeError raised by
calling .update on a None metadata column. -/
inductive ApiError where
  | httpException (status : Nat) (detail : String)
  | multipleResultsFound
  | attributeError
deriving DecidableEq

/-- Acknowledgement payload of DELETE "/{id}": the dict 'status: deleted'. -/
structure DeleteAck where
  status : String
deriving DecidableEq

/-- Python 'x or default' applied to the nullable metadata column, as in
'n.node_metadata or {}' in list_nodes and get_node: None and the empty dict
are falsy. -/
def pyOr : Option Metadata → Metadata
  | none => []
  | some m => if m.isEmpty then [] else m

/-- Serialization of a stored row into a NodeResponse, as built explicitly in
list_nodes and get_node, with metadata defaulted by pyOr.  Modelled from the
spec for the create_node return paths: there the ORM object is serialized by
the response_model with the external field name metadata mapped from the
internal node_metadata. -/
def nodeToResponse (n : Node) : NodeResponse :=
  { id := n.id
    name := n.name
    fingerprint := n.fingerprint
    status := n.status
    registered_at := n.registered_at
    last_seen := n.last_seen
    metadata := pyOr n.node_metadata }

/-- Python dict.update on association lists: existing keys keep their position
and take the new value, keys of the update absent from the original are
appended in the update's order. -/
def dictUpdate (old new : Metadata) : Metadata :=
  old.map (fun p =>
    match new.lookup p.1 with
    | some v => (p.1, v)
    | none => p)
  ++ new.filter (fun q => (old.lookup q.1).isNone)

/-- The metadata merge step of create_node's update path:
'if node.metadata: existing.node_metadata.update(node.metadata)'.
A falsy (empty) update dict skips the merge; a non-empty update applied to a
None column raises AttributeError. -/
def mergeMeta (old : Option Metadata) (new : Metadata) :
    Except ApiError (Option Metadata) :=
  if new.isEmpty then .ok old
  else
    match old with
    | some m => .ok (some (dictUpdate m new))
    | none => .error .attributeError

/-- sqlalchemy's Result.scalar_one_or_none on the rows matched by a select:
none for no row, the row when unique, MultipleResultsFound otherwise. -/
def scalar_one_or_none (l : List Node) : Except ApiError (Option Node) :=
  match l with
  | [] => .ok none
  | [n] => .ok (some n)
  | _ :: _ :: _ => .error .multipleResultsFound

/-- In-place mutation of the row matched by fingerprint (the ORM object
'existing' is mutated and committed): every row carrying that fingerprint is
replaced by the updated row.  The branch is only reachable when exactly one
row matches. -/
def replaceByFp (fp : String) (updated : Node) (l : List Node) : List Node :=
  l.map (fun r => if r.fingerprint == fp then updated else r)

/-- The row mutated by create_node's update path: status set to active,
last_seen set to now, metadata merged (when the supplied dict is non-empty
and the column non-null). -/
def updatedRecord (ex : Node) (now : Nat) (md : Option Metadata) : Node :=
  { ex with status := "active", last_seen := now, node_metadata := md }

/-- The fresh row inserted by create_node's create path.  Modelled from the
spec for the pieces living in the missing app/models.py: the generated id
and the column defaults registered_at = last_seen = now.  The metadata
column is set from 'node.metadata or {}' in nodes.py. -/
def newNode (req : NodeCreate) (now : Nat) (nid : Nat) : Node :=
  { id := toString nid
    name := req.name
    fingerprint := req.fingerprint
    status := "active"
    registered_at := now
    last_seen := now
    node_metadata := some (if req.metadata.isEmpty then [] else req.metadata) }

/-- POST "": create_node.  Looks up by fingerprint; when found, mutates the
row (status, last_seen, metadata merge) and returns it; when absent, inserts
a fresh row and returns it.  On an exception nothing is committed and the
store is unchanged. -/
def create_node (node : NodeCreate) (now : Nat) (s : Store) :
    Except ApiError NodeResponse × Store :=
  match scalar_one_or_none
      (s.nodes.filter (fun r => r.fingerprint == node.fingerprint)) with
  | .error e => (.error e, s)
  | .ok (some existing) =>
    match mergeMeta existing.node_metadata node.metadata with
    | .error e => (.error e, s)
    | .ok md =>
      let upd := updatedRecord existing now md
      (.ok (nodeToResponse upd),
       { s with nodes := replaceByFp node.fingerprint upd s.nodes })
  | .ok none =>
    let db_node := newNode node now s.nextId
    (.ok (nodeToResponse db_node),
     { nodes := s.nodes ++ [db_node], nextId := s.nextId + 1 })

/-- GET "": list_nodes.  Serializes every row, defaulting a null metadata
column to the empty mapping. -/
def list_nodes (s : Store) : List NodeResponse × Store :=
  (s.nodes.map nodeToResponse, s)

/-- GET "/{id}": get_node.  Single lookup by id; 404 "Node not found" when no
row matches. -/
def get_node (node_id : String) (s : Store) :
    Except ApiError NodeResponse × Store :=
  match scalar_one_or_none (s.nodes.filter (fun r => r.id == node_id)) with
  | .error e => (.error e, s)
  | .ok none => (.error (.httpException 404 "Node not found"), s)
  | .ok (some n) => (.ok (nodeToResponse n), s)

/-- DELETE "/{id}": delete_node.  Lookup by id; 404 "Node not found" when
absent; otherwise the matched row is deleted and an acknowledgement is
returned. -/
def delete_node (node_id : String) (s : Store) :
    Except ApiError DeleteAck × Store :=
  match scalar_one_or_none (s.nodes.filter (fun r => r.id == node_id)) with
  | .error e => (.error e, s)
  | .ok none => (.error (.httpException 404 "Node not found"), s)
  | .ok (some _) =>
    (.ok { status := "deleted" },
     { s with nodes := s.nodes.filter (fun r => !(r.id == node_id)) })

/-- One API call of the surface. -/
inductive Call where
  | register (req : NodeCreate)
  | listAll
  | getById (node_id : String)
  | deleteById (node_id : String)
deriving DecidableEq

/-- The store after one call executed at time now (an exception commits
nothing: the session is rolled back and the store unchanged). -/
def step (c : Call) (now : Nat) (s : Store) : Store :=
  match c with
  | .register req => (create_node req now s).2
  | .listAll => (list_nodes s).2
  | .getById nid => (get_node nid s).2
  | .deleteById nid => (delete_node nid s).2

/-- The store after a sequence of timestamped calls executed sequentially. -/
def runTrace (tr : List (Call × Nat)) (s : Store) : Store :=
  match tr with
  | [] => s
  | (c, t) :: rest => runTrace rest (step c t s)

/-- A sequence of timestamped register calls, collecting the successful
responses in order. -/
def runRegisters (reqs : List (NodeCreate × Nat)) (s : Store) :
    List NodeResponse × Store :=
  match reqs with
  | [] => ([], s)
  | (req, t) :: rest =>
    match create_node req t s with
    | (.ok resp, s') =>
      let tail := runRegisters rest s'
      (resp :: tail.1, tail.2)
    | (.error _, s') => runRegisters rest s'

/-- Decides that a list of timestamps is nondecreasing. -/
def nondecB : List Nat → Bool
  | [] => true
  | [_] => true
  | a :: b :: rest => decide (a ≤ b) && nondecB (b :: rest)

/-- The merged metadata produced by the update path: the original when the
supplied dict is falsy, dict.update otherwise. -/
def mergedMeta (old new : Metadata) : Metadata :=
  if new.isEmpty then old else dictUpdate old new

theorem mergeMeta_some (old new : Metadata) :
    mergeMeta (some old) new = .ok (some (mergedMeta old new)) := by
  unfold mergeMeta mergedMeta
  split <;> rfl

theorem lookup_append (k : String) (l₁ l₂ : Metadata) :
    (l₁ ++ l₂).lookup k = (l₁.lookup k).or (l₂.lookup k) := by
  induction l₁ with
  | nil => simp [List.lookup]
  | cons a t ih =>
    simp [List.lookup]
    split <;> simp [ih]

theorem lookup_updOld (new old : Metadata) (k : String) :
    (old.map (fun p =>
      match new.lookup p.1 with
      | some v => (p.1, v)
      | none => p)).lookup k
    = (old.lookup k).map (fun v => (new.lookup k).getD v) := by
  induction old with
  | nil => simp [List.lookup]
  | cons a t ih =>
    rcases a with ⟨ak, av⟩
    by_cases hk : k = ak
    · subst hk
      rcases h : new.lookup k with _ | v <;> simp [List.lookup, h]
    · have hbeq : (k == ak) = false := by simp [hk]
      rcases h : new.lookup ak with _ | v <;>
        simp [List.lookup, h, hbeq, ih]

theorem lookup_filterKey (new : Metadata) (p : String → Bool) (k : String) :
    (new.filter (fun q => p q.1)).lookup k
    = if p k then new.lookup k else none := by
  induction new with
  | nil => simp [List.lookup]
  | cons a t ih =>
    rcases a with ⟨ak, av⟩
    by_cases hk : k = ak
    · subst hk
      by_cases hp : p k <;> simp [List.filter, List.lookup, hp, ih]
    · have hbeq : (k == ak) = false := by simp [hk]
      by_cases hp : p ak <;> simp [List.filter, List.lookup, hp, hbeq, ih]

theorem lookup_dictUpdate (old new : Metadata) (k : String) :
    (dictUpdate old new).lookup k = (new.lookup k).or (old.lookup k) := by
  unfold dictUpdate
  rw [lookup_append, lookup_updOld,
    lookup_filterKey new (fun x => (old.lookup x).isNone) k]
  rcases h : old.lookup k with _ | w <;>
    rcases h2 : new.lookup k with _ | v <;> simp [h, h2]

theorem lookup_mergedMeta (old new : Metadata) (k : String) :
    (mergedMeta old new).lookup k = (new.lookup k).or (old.lookup k) := by
  unfold mergedMeta
  split
  · rename_i he
    have : new = [] := by simpa using he
    subst this
    simp [List.lookup]
  · exact lookup_dictUpdate old new k

theorem pyOr_some (m : Metadata) : pyOr (some m) = m := by
  cases m with
  | nil => rfl
  | cons a t => rfl

theorem filter_eq_single {p : Node → Bool} {l : List Node} {a : Node} :
    l.filter p = [a] → ∀ x ∈ l, p x = true → x = a := by
  induction l with
  | nil =>
    intro _ x hx
    simp at hx
  | cons b t ih =>
    intro h x hx hpx
    by_cases hb : p b = true
    · rw [List.filter_cons_of_pos hb] at h
      have hba : b = a := (List.cons.injEq ..).mp h |>.1
      have ht : t.filter p = [] := (List.cons.injEq ..).mp h |>.2
      rcases List.mem_cons.mp hx with hx | hx
      · exact hx.trans hba
      · exact absurd hpx ((List.filter_eq_nil_iff.mp ht) x hx)
    · rw [List.filter_cons_of_neg hb] at h
      rcases List.mem_cons.mp hx with hx | hx
      · exact absurd (hx ▸ hpx) hb
      · exact ih h x hx hpx

theorem filter_eq_single_pred {p : Node → Bool} {l : List Node} {a : Node}
    (h : l.filter p = [a]) : a ∈ l ∧ p a = true := by
  have ha : a ∈ l.filter p := by
    rw [h]
    exact List.mem_cons_self a []
  exact List.mem_filter.mp ha

example : pyOr (some [("zone", "a")]) = [("zone", "a")] := by decide
example : dictUpdate [("zone", "a")] [("rack", "5"), ("zone", "b")]
    = [("zone", "b"), ("rack", "5")] := by decide

/-- The projection of a stored row onto the fields the update path of
create_node never touches. -/
def projKey (r : Node) : String × String × String × Nat :=
  (r.id, r.name, r.fingerprint, r.registered_at)

/-- A concrete stored row used to instantiate the theorems below. -/
def exNode : Node :=
  { id := "1"
    name := "n1"
    fingerprint := "fp1"
    status := "active"
    registered_at := 1
    last_seen := 1
    node_metadata := some [("zone", "a")] }

/-- A concrete one-row store used to instantiate the theorems below. -/
def exStore : Store := { nodes := [exNode], nextId := 2 }

/-- A concrete re-registration request for the fingerprint of exNode, with a
different name and fresh metadata. -/
def exReq : NodeCreate :=
  { name := "n1-renamed", fingerprint := "fp1", metadata := [("rack", "5")] }

/-- A concrete registration request with a brand-new fingerprint. -/
def exReq2 : NodeCreate := { name := "n2", fingerprint := "fp2", metadata := [] }

/-- A second concrete stored row, with a different fingerprint. -/
def exNode2 : Node :=
  { id := "2"
    name := "n2"
    fingerprint := "fp2"
    status := "active"
    registered_at := 1
    last_seen := 1
    node_metadata := some [] }

/-- A concrete two-row store. -/
def exStore2 : Store := { nodes := [exNode, exNode2], nextId := 3 }

/-- A concrete stored row whose metadata column is null. -/
def exNodeNull : Node :=
  { id := "3"
    name := "n3"
    fingerprint := "fp3"
    status := "active"
    registered_at := 1
    last_seen := 1
    node_metadata := none }

/-- A concrete store holding a row with a null metadata column. -/
def exStoreNull : Store := { nodes := [exNodeNull], nextId := 4 }

theorem get_node_snd (nid : String) (s : Store) : (get_node nid s).2 = s := by
  unfold get_node
  rcases hf : s.nodes.filter (fun r => r.id == nid) with _ | ⟨m, _ | ⟨m2, rest⟩⟩ <;>
    simp [hf, scalar_one_or_none]

/-- Claim C10: list_nodes and get_node never modify the store: for every id
(whether or not a matching record exists) and every store state, the store
after a list or get call equals the store before it. -/
theorem list_get_preserve_store (s : Store) (nid : String) :
    (list_nodes s).2 = s ∧ (get_node nid s).2 = s :=
  ⟨rfl, get_node_snd nid s⟩

/-- Claim C5: get_node returns the serialization of the unique record with the
given id when one exists, fails with the NotFound signal (404, detail
"Node not found") exactly when no record has that id, and leaves the store
unchanged in the failure case (indeed in every case). -/
theorem get_node_spec (s : Store) (nid : String) (n : Node) :
    (s.nodes.filter (fun r => r.id == nid) = [n] →
      get_node nid s = (.ok (nodeToResponse n), s)) ∧
    ((get_node nid s).1 = .error (.httpException 404 "Node not found") ↔
      s.nodes.filter (fun r => r.id == nid) = []) ∧
    (get_node nid s).2 = s := by
  refine ⟨?_, ⟨?_, ?_⟩, get_node_snd nid s⟩
  · intro h
    simp [get_node, h, scalar_one_or_none]
  · intro h
    rcases hf : s.nodes.filter (fun r => r.id == nid) with _ | ⟨m, _ | ⟨m2, rest⟩⟩
    · exact hf
    · simp [get_node, hf, scalar_one_or_none] at h
    · simp [get_node, hf, scalar_one_or_none] at h
  · intro h
    simp [get_node, h, scalar_one_or_none]

/-- Witness for C5 at a concrete store: id "1" is found and serialized, id "9"
fails with the 404 signal. -/
theorem get_node_spec_witness :
    get_node "1" exStore = (.ok (nodeToResponse exNode), exStore) ∧
    (get_node "9" exStore).1 = .error (.httpException 404 "Node not found") :=
  ⟨(get_node_spec exStore "1" exNode).1 (by decide),
   (get_node_spec exStore "9" exNode).2.1.mpr (by decide)⟩

/-- Claim C4: delete_node on an unknown id fails with the NotFound signal
(404, detail "Node not found") and leaves the store unchanged; on an
existing id it removes exactly that record, returns the acknowledgement
'status: deleted', and afterwards get_node on the same id fails with
NotFound and the record is absent from list results. -/
theorem delete_node_spec (s : Store) (nid : String) (n : Node) :
    (s.nodes.filter (fun r => r.id == nid) = [] →
      delete_node nid s = (.error (.httpException 404 "Node not found"), s)) ∧
    (s.nodes.filter (fun r => r.id == nid) = [n] →
      (delete_node nid s).1 = .ok { status := "deleted" } ∧
      (delete_node nid s).2.nodes = s.nodes.filter (fun r => !(r.id == nid)) ∧
      (get_node nid (delete_node nid s).2).1 =
        .error (.httpException 404 "Node not found") ∧
      (list_nodes (delete_node nid s).2).1.all
        (fun resp => !(resp.id == nid)) = true) := by
  constructor
  · intro h
    simp [delete_node, h, scalar_one_or_none]
  · intro h
    have hdel : delete_node nid s =
        (.ok { status := "deleted" },
         { s with nodes := s.nodes.filter (fun r => !(r.id == nid)) }) := by
      simp [delete_node, h, scalar_one_or_none]
    have hfil : (s.nodes.filter (fun r => !(r.id == nid))).filter
        (fun r => r.id == nid) = [] := by
      rw [List.filter_eq_nil_iff]
      intro r hr
      have h2 := (List.mem_filter.mp hr).2
      simp at h2
      simp [h2]
    refine ⟨by rw [hdel], by rw [hdel], ?_, ?_⟩
    · rw [hdel]
      simp [get_node, hfil, scalar_one_or_none]
    · rw [hdel]
      rw [List.all_eq_true]
      intro resp hresp
      rcases List.mem_map.mp hresp with ⟨r, hr, hrr⟩
      have h2 := (List.mem_filter.mp hr).2
      rw [← hrr]
      simpa [nodeToResponse] using h2

/-- Witness for C4 at a concrete store: deleting id "9" gives the 404 signal,
deleting id "1" acknowledges and a subsequent get gives the 404 signal. -/
theorem delete_node_spec_witness :
    delete_node "9" exStore = (.error (.httpException 404 "Node not found"), exStore) ∧
    (delete_node "1" exStore).1 = .ok { status := "deleted" } ∧
    (get_node "1" (delete_node "1" exStore).2).1 =
      .error (.httpException 404 "Node not found") :=
  ⟨(delete_node_spec exStore "9" exNode).1 (by decide),
   ((delete_node_spec exStore "1" exNode).2 (by decide)).1,
   ((delete_node_spec exStore "1" exNode).2 (by decide)).2.2.1⟩

/-- Claim C1: registering a fingerprint that matches a stored record updates
that record: status becomes "active", last_seen becomes now, and the
supplied metadata is merged into the existing mapping by shallow key
overwrite (for every key, the merged value is the supplied one when present
and the existing one otherwise), and the updated record is returned. -/
theorem create_node_merges_existing (req : NodeCreate) (now : Nat) (s : Store)
    (ex : Node) (old : Metadata) (k : String)
    (h1 : s.nodes.filter (fun r => r.fingerprint == req.fingerprint) = [ex])
    (h2 : ex.node_metadata = some old) :
    create_node req now s =
      (.ok (nodeToResponse
        (updatedRecord ex now (some (mergedMeta old req.metadata)))),
       Store.mk
         (replaceByFp req.fingerprint
           (updatedRecord ex now (some (mergedMeta old req.metadata)))
           s.nodes)
         s.nextId) ∧
    (updatedRecord ex now (some (mergedMeta old req.metadata))).status
      = "active" ∧
    (updatedRecord ex now (some (mergedMeta old req.metadata))).last_seen
      = now ∧
    (nodeToResponse
      (updatedRecord ex now (some (mergedMeta old req.metadata)))).metadata
      = mergedMeta old req.metadata ∧
    (mergedMeta old req.metadata).lookup k
      = (req.metadata.lookup k).or (old.lookup k) := by
  refine ⟨?_, rfl, rfl, pyOr_some _, lookup_mergedMeta old req.metadata k⟩
  simp [create_node, h1, scalar_one_or_none, h2, mergeMeta_some]

/-- Witness for C1: re-registering fingerprint "fp1" with metadata
'rack: 5' over the stored 'zone: a' yields the union of both mappings. -/
theorem create_node_merges_existing_witness :
    create_node exReq 2 exStore =
      (.ok (nodeToResponse
        (updatedRecord exNode 2 (some (mergedMeta [("zone", "a")] exReq.metadata)))),
       Store.mk
         (replaceByFp exReq.fingerprint
           (updatedRecord exNode 2 (some (mergedMeta [("zone", "a")] exReq.metadata)))
           exStore.nodes)
         exStore.nextId) ∧
    (mergedMeta [("zone", "a")] exReq.metadata).lookup "zone" = some "a" ∧
    (mergedMeta [("zone", "a")] exReq.metadata).lookup "rack" = some "5" := by
  have h := create_node_merges_existing exReq 2 exStore exNode
    [("zone", "a")] "zone" (by decide) rfl
  have h2 := create_node_merges_existing exReq 2 exStore exNode
    [("zone", "a")] "rack" (by decide) rfl
  refine ⟨h.1, ?_, ?_⟩
  · rw [h.2.2.2.2]
    decide
  · rw [h2.2.2.2.2]
    decide

/-- Claim C2: registering a fingerprint that matches no stored record inserts
and returns a new record with a freshly generated identifier, status
"active", registered_at equal to last_seen (both equal to now), and
metadata equal to the supplied mapping (the empty mapping when none was
supplied, since the request field defaults to the empty mapping). -/
theorem create_node_creates_fresh (req : NodeCreate) (now : Nat) (s : Store)
    (h : s.nodes.filter (fun r => r.fingerprint == req.fingerprint) = []) :
    create_node req now s =
      (.ok (nodeToResponse (newNode req now s.nextId)),
       { nodes := s.nodes ++ [newNode req now s.nextId],
         nextId := s.nextId + 1 }) ∧
    (newNode req now s.nextId).id = toString s.nextId ∧
    (newNode req now s.nextId).status = "active" ∧
    (newNode req now s.nextId).registered_at = now ∧
    (newNode req now s.nextId).last_seen = now ∧
    (newNode req now s.nextId).node_metadata = some req.metadata ∧
    (nodeToResponse (newNode req now s.nextId)).metadata = req.metadata := by
  have hmd : (if req.metadata.isEmpty then ([] : Metadata) else req.metadata)
      = req.metadata := by
    split
    · rename_i he
      simp_all
    · rfl
  refine ⟨?_, rfl, rfl, rfl, rfl, ?_, ?_⟩
  · simp [create_node, h, scalar_one_or_none]
  · simp [newNode, hmd]
  · simp [nodeToResponse, newNode, pyOr_some, hmd]

/-- Witness for C2: registering the brand-new fingerprint "fp2" at time 3
creates a record with registered_at = last_seen = 3 and status "active". -/
theorem create_node_creates_fresh_witness :
    create_node exReq2 3 exStore =
      (.ok (nodeToResponse (newNode exReq2 3 exStore.nextId)),
       { nodes := exStore.nodes ++ [newNode exReq2 3 exStore.nextId],
         nextId := exStore.nextId + 1 }) ∧
    (newNode exReq2 3 exStore.nextId).registered_at = 3 ∧
    (newNode exReq2 3 exStore.nextId).last_seen = 3 ∧
    (newNode exReq2 3 exStore.nextId).status = "active" := by
  have h := create_node_creates_fresh exReq2 3 exStore (by decide)
  exact ⟨h.1, h.2.2.2.1, h.2.2.2.2.1, h.2.2.1⟩

/-- Claim C6: on the re-registration path, the matched record's id, name,
fingerprint and registered_at are unchanged (the request's name is
ignored), and every record with a different fingerprint is unchanged. -/
theorem create_node_update_frame (req : NodeCreate) (now : Nat) (s : Store)
    (ex : Node) (i : Nat) (r : Node)
    (h1 : s.nodes.filter (fun x => x.fingerprint == req.fingerprint) = [ex]) :
    ((create_node req now s).2.nodes.map projKey = s.nodes.map projKey) ∧
    (s.nodes[i]? = some r → r.fingerprint ≠ req.fingerprint →
      (create_node req now s).2.nodes[i]? = some r) := by
  rcases hm : mergeMeta ex.node_metadata req.metadata with e | md
  · have hcn : (create_node req now s).2 = s := by
      simp [create_node, h1, scalar_one_or_none, hm]
    rw [hcn]
    exact ⟨rfl, fun hi _ => hi⟩
  · have hcn : (create_node req now s).2.nodes =
        replaceByFp req.fingerprint (updatedRecord ex now md) s.nodes := by
      simp [create_node, h1, scalar_one_or_none, hm]
    rw [hcn]
    constructor
    · unfold replaceByFp
      rw [List.map_map]
      apply List.map_congr_left
      intro x hx
      by_cases hb : (x.fingerprint == req.fingerprint) = true
      · have hxe : x = ex := filter_eq_single h1 x hx hb
        subst hxe
        simp [Function.comp, hb, projKey, updatedRecord]
      · simp [Function.comp, hb]
    · intro hi hne
      unfold replaceByFp
      rw [List.getElem?_map, hi]
      have hb : (r.fingerprint == req.fingerprint) = false := by simp [hne]
      simp [hb]
      exact fun hfe => absurd hfe hne

/-- Witness for C6: re-registering "fp1" in a two-row store leaves ids, names,
fingerprints and registration times intact and the "fp2" row untouched. -/
theorem create_node_update_frame_witness :
    (create_node exReq 2 exStore2).2.nodes.map projKey
      = exStore2.nodes.map projKey ∧
    (create_node exReq 2 exStore2).2.nodes[1]? = some exNode2 := by
  have h := create_node_update_frame exReq 2 exStore2 exNode 1 exNode2 (by decide)
  exact ⟨h.1, h.2 (by decide) (by decide)⟩

/-- Claim C9: no returned record carries a null metadata field: list_nodes and
get_node serialize the nullable stored column through pyOr, which maps a
null column to the empty mapping and a non-null column to itself. -/
theorem metadata_never_null (s : Store) (i : Nat) (nid : String) (n : Node)
    (m : Metadata) :
    ((list_nodes s).1[i]?.map NodeResponse.metadata
      = (s.nodes[i]?).map (fun r => pyOr r.node_metadata)) ∧
    (s.nodes.filter (fun r => r.id == nid) = [n] →
      (get_node nid s).1 = .ok (nodeToResponse n) ∧
      (nodeToResponse n).metadata = pyOr n.node_metadata) ∧
    pyOr none = [] ∧ pyOr (some m) = m := by
  refine ⟨?_, ?_, rfl, pyOr_some m⟩
  · simp only [list_nodes, List.getElem?_map, Option.map_map]
    cases s.nodes[i]? <;> rfl
  · intro h
    exact ⟨by simp [get_node, h, scalar_one_or_none], rfl⟩

theorem countP_replaceByFp (fp t : String) (u : Node) (hu : u.fingerprint = fp)
    (l : List Node) :
    (replaceByFp fp u l).countP (fun r => r.fingerprint == t)
      = l.countP (fun r => r.fingerprint == t) := by
  induction l with
  | nil => rfl
  | cons a rest ih =>
    simp only [replaceByFp, List.map_cons, List.countP_cons] at ih ⊢
    by_cases hb : (a.fingerprint == fp) = true
    · have ha : a.fingerprint = fp := by simpa using hb
      rw [if_pos hb, ih]
      have he : u.fingerprint = a.fingerprint := by rw [hu, ha]
      simp [he]
    · rw [if_neg hb, ih]

theorem countP_eq_zero_of_filter_eq_nil {p : Node → Bool} {l : List Node}
    (h : l.filter p = []) : l.countP p = 0 := by
  rw [List.countP_eq_length_filter, h]
  rfl

theorem delete_node_snd_nodes (nid : String) (s : Store) :
    (delete_node nid s).2.nodes = s.nodes ∨
    (delete_node nid s).2.nodes = s.nodes.filter (fun r => !(r.id == nid)) := by
  unfold delete_node
  rcases hf : s.nodes.filter (fun r => r.id == nid) with _ | ⟨m, _ | ⟨m2, rest⟩⟩ <;>
    simp [hf, scalar_one_or_none]

/-- At most one stored row carries any given fingerprint. -/
def uniqueFp (s : Store) : Prop :=
  ∀ fp, s.nodes.countP (fun r => r.fingerprint == fp) ≤ 1

theorem step_uniqueFp (c : Call) (t : Nat) (s : Store) (h : uniqueFp s) :
    uniqueFp (step c t s) := by
  cases c with
  | listAll => exact h
  | getById nid =>
    intro fp
    rw [step, get_node_snd]
    exact h fp
  | deleteById nid =>
    intro fp
    rw [step]
    rcases delete_node_snd_nodes nid s with hd | hd
    · rw [hd]
      exact h fp
    · rw [hd]
      exact le_trans ((List.filter_sublist s.nodes).countP_le _) (h fp)
  | register req =>
    intro fp
    rw [step]
    rcases hf : s.nodes.filter (fun r => r.fingerprint == req.fingerprint)
      with _ | ⟨n, _ | ⟨m2, rest⟩⟩
    · have hcr : (create_node req t s).2 =
          Store.mk (s.nodes ++ [newNode req t s.nextId]) (s.nextId + 1) := by
        simp [create_node, hf, scalar_one_or_none]
      rw [hcr]
      show (s.nodes ++ [newNode req t s.nextId]).countP
        (fun r => r.fingerprint == fp) ≤ 1
      rw [List.countP_append]
      by_cases hb : ((newNode req t s.nextId).fingerprint == fp) = true
      · have hfp : req.fingerprint = fp := by simpa [newNode] using hb
        have hz : s.nodes.countP (fun r => r.fingerprint == fp) = 0 := by
          apply countP_eq_zero_of_filter_eq_nil
          rw [← hfp]
          exact hf
        rw [hz]
        simp [hb]
      · have hb' : ((newNode req t s.nextId).fingerprint == fp) = false := by
          simpa using hb
        simp only [List.countP_cons, List.countP_nil, hb']
        simpa using h fp
    · rcases hm : mergeMeta n.node_metadata req.metadata with e | md
      · have hcr : (create_node req t s).2 = s := by
          simp [create_node, hf, scalar_one_or_none, hm]
        rw [hcr]
        exact h fp
      · have hcr : (create_node req t s).2 =
            Store.mk (replaceByFp req.fingerprint (updatedRecord n t md) s.nodes)
              s.nextId := by
          simp [create_node, hf, scalar_one_or_none, hm]
        rw [hcr]
        have hn : n.fingerprint = req.fingerprint := by
          have := (filter_eq_single_pred hf).2
          simpa using this
        have hu : (updatedRecord n t md).fingerprint = req.fingerprint := hn
        show (replaceByFp req.fingerprint (updatedRecord n t md) s.nodes).countP
          (fun r => r.fingerprint == fp) ≤ 1
        rw [countP_replaceByFp req.fingerprint fp (updatedRecord n t md) hu]
        exact h fp
    · have hcr : (create_node req t s).2 = s := by
        simp [create_node, hf, scalar_one_or_none]
      rw [hcr]
      exact h fp

theorem runTrace_uniqueFp (tr : List (Call × Nat)) :
    ∀ s : Store, uniqueFp s → uniqueFp (runTrace tr s) := by
  induction tr with
  | nil => exact fun s h => h
  | cons p rest ih =>
    rcases p with ⟨c, t⟩
    exact fun s h => ih (step c t s) (step_uniqueFp c t s h)

/-- Claim C3: in every store reachable from the empty store by any sequence
of register, list, get and delete calls executed sequentially, at most one
record carries any given fingerprint value. -/
theorem fingerprint_unique_reachable (tr : List (Call × Nat)) (fp : String) :
    (runTrace tr emptyStore).nodes.countP (fun r => r.fingerprint == fp) ≤ 1 :=
  runTrace_uniqueFp tr emptyStore (fun _ => by simp [emptyStore]) fp

/-- Every stored row has registered_at at most last_seen, and last_seen at
most the given clock lower bound. -/
def tsBound (t : Nat) (s : Store) : Prop :=
  ∀ r ∈ s.nodes, r.registered_at ≤ r.last_seen ∧ r.last_seen ≤ t

theorem step_tsBound (c : Call) (t t' : Nat) (s : Store)
    (h : tsBound t s) (htt : t ≤ t') : tsBound t' (step c t' s) := by
  have hs : tsBound t' s := fun r hr => ⟨(h r hr).1, le_trans (h r hr).2 htt⟩
  cases c with
  | listAll => exact hs
  | getById nid =>
    rw [step, get_node_snd]
    exact hs
  | deleteById nid =>
    intro r hr
    rw [step] at hr
    rcases delete_node_snd_nodes nid s with hd | hd
    · rw [hd] at hr
      exact hs r hr
    · rw [hd] at hr
      exact hs r (List.mem_filter.mp hr).1
  | register req =>
    intro r hr
    rw [step] at hr
    rcases hf : s.nodes.filter (fun x => x.fingerprint == req.fingerprint)
      with _ | ⟨n, _ | ⟨m2, rest⟩⟩
    · have hcr : (create_node req t' s).2 =
          Store.mk (s.nodes ++ [newNode req t' s.nextId]) (s.nextId + 1) := by
        simp [create_node, hf, scalar_one_or_none]
      rw [hcr] at hr
      rcases List.mem_append.mp hr with hr | hr
      · exact hs r hr
      · have : r = newNode req t' s.nextId := by simpa using hr
        subst this
        exact ⟨le_refl t', le_refl t'⟩
    · rcases hm : mergeMeta n.node_metadata req.metadata with e | md
      · have hcr : (create_node req t' s).2 = s := by
          simp [create_node, hf, scalar_one_or_none, hm]
        rw [hcr] at hr
        exact hs r hr
      · have hcr : (create_node req t' s).2 =
            Store.mk (replaceByFp req.fingerprint (updatedRecord n t' md) s.nodes)
              s.nextId := by
          simp [create_node, hf, scalar_one_or_none, hm]
        rw [hcr] at hr
        rcases List.mem_map.mp hr with ⟨x, hx, hxr⟩
        by_cases hb : (x.fingerprint == req.fingerprint) = true
        · rw [if_pos hb] at hxr
          subst hxr
          have hnmem : n ∈ s.nodes := (filter_eq_single_pred hf).1
          have hn := hs n hnmem
          exact ⟨le_trans hn.1 (le_trans hn.2 (le_refl t')), le_refl t'⟩
        · rw [if_neg hb] at hxr
          subst hxr
          exact hs x hx
    · have hcr : (create_node req t' s).2 = s := by
        simp [create_node, hf, scalar_one_or_none]
      rw [hcr] at hr
      exact hs r hr

theorem runTrace_tsBound (tr : List (Call × Nat)) :
    ∀ (t : Nat) (s : Store), tsBound t s →
      nondecB (t :: tr.map Prod.snd) = true →
      ∃ t', tsBound t' (runTrace tr s) := by
  induction tr with
  | nil => exact fun t s h _ => ⟨t, h⟩
  | cons p rest ih =>
    rcases p with ⟨c, t₁⟩
    intro t s h hmono
    have hmono' : (decide (t ≤ t₁) && nondecB (t₁ :: rest.map Prod.snd)) = true :=
      hmono
    rcases (Bool.and_eq_true ..) ▸ hmono' with ⟨ha, hb⟩
    exact ih t₁ (step c t₁ s) (step_tsBound c t t₁ s h (of_decide_eq_true ha)) hb

/-- Claim C7: in every record of every store reachable from the empty store by
sequential calls whose timestamps are nondecreasing, registered_at is at
most last_seen. -/
theorem registered_le_last_seen_reachable (tr : List (Call × Nat))
    (h : nondecB (tr.map Prod.snd) = true) :
    (runTrace tr emptyStore).nodes.all
      (fun r => decide (r.registered_at ≤ r.last_seen)) = true := by
  have h0 : nondecB (0 :: tr.map Prod.snd) = true := by
    cases htr : tr.map Prod.snd with
    | nil => rfl
    | cons a l =>
      rw [htr] at h
      show (decide (0 ≤ a) && nondecB (a :: l)) = true
      simp [h]
  have hempty : tsBound 0 emptyStore := by
    intro r hr
    simp [emptyStore] at hr
  rcases runTrace_tsBound tr 0 emptyStore hempty h0 with ⟨t', ht'⟩
  rw [List.all_eq_true]
  intro r hr
  simpa using (ht' r hr).1

/-- A concrete nondecreasing trace: register "fp1", re-register it with new
metadata, then delete a row by id. -/
def exTrace : List (Call × Nat) :=
  [(.register { name := "n1", fingerprint := "fp1", metadata := [("zone", "a")] }, 1),
   (.register exReq, 2),
   (.deleteById "1", 3)]

/-- Witness for C7: along the concrete trace exTrace every reachable record
satisfies registered_at at most last_seen. -/
theorem registered_le_last_seen_reachable_witness :
    (runTrace exTrace emptyStore).nodes.all
      (fun r => decide (r.registered_at ≤ r.last_seen)) = true :=
  registered_le_last_seen_reachable exTrace (by decide)

theorem runRegisters_fresh (reqs : List (NodeCreate × Nat)) :
    ∀ s : Store,
      (reqs.map (fun p => p.1.fingerprint)).Nodup →
      (∀ p ∈ reqs,
        s.nodes.filter (fun r => r.fingerprint == p.1.fingerprint) = []) →
      ∃ recs : List Node,
        (runRegisters reqs s).2.nodes = s.nodes ++ recs ∧
        (runRegisters reqs s).1 = recs.map nodeToResponse ∧
        recs.length = reqs.length := by
  induction reqs with
  | nil =>
    exact fun s _ _ => ⟨[], by simp [runRegisters], by simp [runRegisters], rfl⟩
  | cons p rest ih =>
    rcases p with ⟨req, t⟩
    intro s hnd hfil
    have hf : s.nodes.filter (fun r => r.fingerprint == req.fingerprint) = [] :=
      hfil (req, t) (List.mem_cons_self ..)
    have hcr : create_node req t s =
        (.ok (nodeToResponse (newNode req t s.nextId)),
         Store.mk (s.nodes ++ [newNode req t s.nextId]) (s.nextId + 1)) := by
      simp [create_node, hf, scalar_one_or_none]
    have hnd2 := List.nodup_cons.mp hnd
    have hfil2 : ∀ q ∈ rest,
        (s.nodes ++ [newNode req t s.nextId]).filter
          (fun r => r.fingerprint == q.1.fingerprint) = [] := by
      intro q hq
      rw [List.filter_append]
      have h1 : s.nodes.filter (fun r => r.fingerprint == q.1.fingerprint) = [] :=
        hfil q (List.mem_cons_of_mem _ hq)
      have hne : req.fingerprint ≠ q.1.fingerprint := by
        intro he
        have hmm : q.1.fingerprint ∈ rest.map (fun p => p.1.fingerprint) :=
          List.mem_map_of_mem (fun p => p.1.fingerprint) hq
        rw [← he] at hmm
        exact hnd2.1 hmm
      have h2 : ([newNode req t s.nextId]).filter
          (fun r => r.fingerprint == q.1.fingerprint) = [] := by
        simp [newNode, hne]
      rw [h1, h2]
      rfl
    rcases ih (Store.mk (s.nodes ++ [newNode req t s.nextId]) (s.nextId + 1))
        hnd2.2 hfil2 with ⟨recs, hr1, hr2, hr3⟩
    refine ⟨newNode req t s.nextId :: recs, ?_, ?_, ?_⟩
    · show (runRegisters ((req, t) :: rest) s).2.nodes = _
      simp only [runRegisters, hcr]
      rw [hr1]
      simp [List.append_assoc]
    · show (runRegisters ((req, t) :: rest) s).1 = _
      simp only [runRegisters, hcr]
      rw [hr2]
      simp
    · simp [hr3]

/-- Claim C8: after registering any sequence of requests with pairwise
distinct fingerprints starting from the empty store, list_nodes returns
exactly one record per registration, each equal to what the corresponding
register call returned, in order. -/
theorem list_after_distinct_registers (reqs : List (NodeCreate × Nat))
    (h : (reqs.map (fun p => p.1.fingerprint)).Nodup) :
    (list_nodes (runRegisters reqs emptyStore).2).1
      = (runRegisters reqs emptyStore).1 ∧
    (runRegisters reqs emptyStore).1.length = reqs.length := by
  rcases runRegisters_fresh reqs emptyStore h (fun p _ => rfl)
    with ⟨recs, h1, h2, h3⟩
  constructor
  · show (runRegisters reqs emptyStore).2.nodes.map nodeToResponse = _
    rw [h1, h2]
    simp [emptyStore]
  · rw [h2]
    simp [h3]

/-- A concrete pair of registrations with distinct fingerprints. -/
def exRegs : List (NodeCreate × Nat) :=
  [({ name := "n1", fingerprint := "fp1", metadata := [("zone", "a")] }, 1),
   (exReq2, 2)]

/-- Witness for C8: after the two distinct registrations of exRegs, list
returns exactly the two records the register calls returned. -/
theorem list_after_distinct_registers_witness :
    (list_nodes (runRegisters exRegs emptyStore).2).1
      = (runRegisters exRegs emptyStore).1 ∧
    (runRegisters exRegs emptyStore).1.length = 2 := by
  have h := list_after_distinct_registers exRegs (by decide)
  exact ⟨h.1, h.2⟩

/-- Witness for C9: a store holding a row whose metadata column is null is
listed and fetched with the empty mapping as metadata. -/
theorem metadata_never_null_witness :
    (list_nodes exStoreNull).1[0]?.map NodeResponse.metadata = some [] ∧
    (get_node "3" exStoreNull).1 = .ok (nodeToResponse exNodeNull) ∧
    (nodeToResponse exNodeNull).metadata = [] := by
  have h := metadata_never_null exStoreNull 0 "3" exNodeNull []
  have h2 := h.2.1 (by decide)
  refine ⟨?_, h2.1, ?_⟩
  · rw [h.1]
    decide
  · rw [h2.2]
    decide

end Smite
